import Mathlib

/-
  Shallow embedding of the dialog core of the easy-dialogs repository:
  src/dialog/bases.py (filter groups, scenes, relations, routers, transition
  resolution, the handler loop) and src/dialog/shared/storage.py (the
  scenes-history storage).

  Modelling conventions:
  * handler_kwargs (the mutable event context) is an association list with
    Python-dict semantics: one binding per key, assignment overwrites in place.
    Mutation is made explicit by threading the context value through every
    function, in exactly the order the Python code performs the calls.
  * A filter predicate is a pure function of the context returning either a
    bool or a mapping to merge (the two result kinds BaseFiltersGroup.check
    distinguishes at src/dialog/bases.py lines 91 to 95).
  * Hooks (on_transition, on_exit, on_enter) and the view call are awaited
    side effects whose return value the engine ignores; they are modelled as
    numeric identifiers, and every invocation is recorded in a trace together
    with the exact context the engine passes to it.
  * Scene objects form a cyclic graph in Python, so relations refer to their
    target by full name, resolved through the registry, exactly as
    BaseRelation.init_scene stores them (to_scene = initialized_scenes[name]).
  * Python exceptions (KeyError on a missing filters_to_check entry, the
    RuntimeError of init_scene, KeyError of get_previous_scene) are modelled
    with Except String.
-/

namespace EasyDialogs

/-- A value stored in handler_kwargs.  The engine stores scene references
(or None) under the previous/current/next scene keys; scenes are referred to
by full name. -/
inductive Val where
  | vstr : String → Val
  | vnat : Nat → Val
  | vbool : Bool → Val
  | scene_ref : Option String → Val
  deriving DecidableEq, Repr

/-- The event context: Python dict with string keys. -/
abbrev Ctx := List (String × Val)

/-- Python dict assignment d[k] = v: overwrite the binding in place if the key
exists, otherwise append a new binding. -/
def dict_set {α : Type} : List (String × α) → String → α → List (String × α)
  | [], k, v => [(k, v)]
  | (k', v') :: rest, k, v =>
      if k' = k then (k, v) :: rest else (k', v') :: dict_set rest k v

/-- Python dict read d.get(k). -/
def dict_get {α : Type} : List (String × α) → String → Option α
  | [], _ => none
  | (k', v) :: rest, k => if k' = k then some v else dict_get rest k

/-- Python dict.update(d): fold the new bindings onto the context, each one
overwriting any existing binding of the same key (src/dialog/bases.py line 92,
handler_kwargs.update(result)). -/
def ctx_update (c : Ctx) (d : List (String × Val)) : Ctx :=
  d.foldl (fun acc kv => dict_set acc kv.1 kv.2) c

/-- What a filter predicate may return: a bool, or a dict of extra context
(src/dialog/bases.py lines 59 to 64 list exactly these callables). -/
inductive FilterResult where
  | boolean : Bool → FilterResult
  | mapping : List (String × Val) → FilterResult

/-- A filter predicate over the event context. -/
abbrev Predicate := Ctx → FilterResult

/-- BaseFiltersGroup after init: the declared event types and the per-event
list of predicates (self.filters_to_check at src/dialog/bases.py line 76). -/
structure FiltersGroup where
  event_types : List String
  filters_to_check : List (String × List Predicate)

/-- The loop body of BaseFiltersGroup.check (src/dialog/bases.py lines 88
to 97): iterate the predicates in order; a mapping result is merged into the
context and iteration continues; a false result stops and rejects; an
exhausted list accepts. -/
def check_predicates : List Predicate → Ctx → Bool × Ctx
  | [], ctx => (true, ctx)
  | f :: fs, ctx =>
      match f ctx with
      | .mapping d => check_predicates fs (ctx_update ctx d)
      | .boolean b => if !b then (false, ctx) else check_predicates fs ctx

/-- BaseFiltersGroup.check (src/dialog/bases.py lines 87 to 97):
self.filters_to_check[event_type] raises KeyError when the event type is
absent; otherwise run the predicate loop. -/
def FiltersGroup.check (g : FiltersGroup) (ctx : Ctx) (event_type : String) :
    Except String (Bool × Ctx) :=
  match dict_get g.filters_to_check event_type with
  | none => .error ("KeyError: " ++ event_type)
  | some fs => .ok (check_predicates fs ctx)

/-- A BaseRelation after init_scene resolved its target (src/dialog/bases.py
lines 360 to 459).  The target is kept by full name; a dynamic target
(get_scene_func) computes the full name of the scene it returns from the
context. -/
structure Relation where
  to_scene_name : String
  get_scene_func : Option (Ctx → String)
  filters : FiltersGroup
  on_transition : List Nat

/-- A BaseScene after init (src/dialog/bases.py lines 106 to 190), restricted
to the fields the decision engine reads.  The source field named namespace is
a Lean keyword, hence nspace. -/
structure Scene where
  name : String
  nspace : String
  relations : List Relation
  filters : Option FiltersGroup
  on_enter : List Nat
  on_exit : List Nat
  is_transitional_scene : Bool
  can_stay : Bool

/-- A BaseRouter (src/dialog/bases.py lines 462 to 475). -/
structure Router where
  nspace : String
  relations : List Relation

/-- BaseDialog._initialized_scenes: the registry Dict[Scene.full_name, Scene]
(src/dialog/bases.py line 547). -/
abbrev Registry := List (String × Scene)

/-- Scene.full_name (src/dialog/bases.py lines 214 to 220). -/
def Scene.full_name (s : Scene) : String :=
  s.nspace ++ "." ++ s.name

/-- BaseDialog.register_scene (src/dialog/bases.py lines 569 to 571):
a plain dict assignment keyed by the full name. -/
def register_scene (reg : Registry) (scene : Scene) : Registry :=
  dict_set reg scene.full_name scene

/-- The string-target branch of BaseRelation.init_scene (src/dialog/bases.py
lines 416 to 423): a name containing no dot is first qualified with the owning
namespace, then the (possibly qualified) name is looked up in the registry;
a missing name raises RuntimeError at init. -/
def qualify_scene_name (nspace : String) (to_scene_name : String) : String :=
  if to_scene_name.toList.count '.' = 0
  then nspace ++ "." ++ to_scene_name
  else to_scene_name

/-- init_scene on a string target: returns the resolved full name and scene,
or the init-time RuntimeError. -/
def init_scene (reg : Registry) (nspace : String) (to_scene_name : String) :
    Except String (String × Scene) :=
  let n := qualify_scene_name nspace to_scene_name
  match dict_get reg n with
  | some s => .ok (n, s)
  | none => .error ("Scene \x22" ++ n ++ "\x22 not found")

/-- AiogramBasedScenesStorage.set_current_scene
(src/dialog/shared/storage.py lines 30 to 45): append the full name of the
new scene unless it already equals the last history entry; on an empty
history (IndexError) append as well. -/
def set_current_scene (scenes_history : List String) (new_scene : Scene) :
    List String :=
  match scenes_history.getLast? with
  | some last =>
      if last ≠ new_scene.full_name
      then scenes_history ++ [new_scene.full_name]
      else scenes_history
  | none => scenes_history ++ [new_scene.full_name]

/-- BaseScenesStorage.get_current_scene (src/dialog/bases.py lines 285 to
293): the registry entry of the last history element, with a None default. -/
def get_current_scene (reg : Registry) (scenes_history : List String) :
    Option Scene :=
  match scenes_history.getLast? with
  | some n => dict_get reg n
  | none => none

/-- BaseScenesStorage.get_previous_scene (src/dialog/bases.py lines 295 to
303): initialized_scenes[history[-2]]; only IndexError is caught, so a
second-to-last name missing from the registry raises KeyError. -/
def get_previous_scene (reg : Registry) (scenes_history : List String) :
    Except String (Option Scene) :=
  match scenes_history.reverse.get? 1 with
  | none => .ok none
  | some n =>
      match dict_get reg n with
      | some s => .ok (some s)
      | none => .error ("KeyError: " ++ n)

/-- One recorded hook or view invocation, together with the exact keyword
context the engine passed to it. -/
inductive TraceEv where
  | on_transition_call : Nat → Ctx → TraceEv
  | on_exit_call : Nat → Ctx → TraceEv
  | on_enter_call : Nat → Ctx → TraceEv
  | view_call : String → Ctx → TraceEv

/-- The configuration key KEY_FOR_PREVIOUS_SCENES
(src/dialog/bases.py line 551). -/
def KEY_FOR_PREVIOUS_SCENES : String := "previous_scene"

/-- The configuration key KEY_FOR_CURRENT_SCENES
(src/dialog/bases.py line 552). -/
def KEY_FOR_CURRENT_SCENES : String := "current_scene"

/-- The configuration key KEY_FOR_NEXT_SCENES
(src/dialog/bases.py line 553). -/
def KEY_FOR_NEXT_SCENES : String := "next_scene"

/-- The scene-reference value stored for an optional scene. -/
def scene_ref_of (s : Option Scene) : Val :=
  .scene_ref (s.map Scene.full_name)

/-- BaseRelation.get_scene (src/dialog/bases.py lines 455 to 459): a dynamic
target invokes get_scene_func on the context, otherwise the pre-resolved
target is used.  After init_scene, to_scene equals
initialized_scenes[to_scene_name], so both arms resolve through the
registry here. -/
def Relation.get_scene (reg : Registry) (r : Relation) (ctx : Ctx) :
    Except String Scene :=
  match r.get_scene_func with
  | some f =>
      match dict_get reg (f ctx) with
      | some s => .ok s
      | none => .error ("Scene " ++ f ctx ++ " not initialized")
  | none =>
      match dict_get reg r.to_scene_name with
      | some s => .ok s
      | none => .error ("Scene " ++ r.to_scene_name ++ " not initialized")

/-- The on_transition loop of get_next_scene (src/dialog/bases.py lines 325
to 330): each hook is awaited in order and receives
handler_kwargs | { KEY_FOR_NEXT_SCENES : next_scene }, a fresh dict union
that does not mutate handler_kwargs itself. -/
def run_on_transition (hooks : List Nat) (ctx : Ctx) (next_scene : Scene) :
    List TraceEv :=
  hooks.map (fun h =>
    .on_transition_call h
      (dict_set ctx KEY_FOR_NEXT_SCENES (.scene_ref (some next_scene.full_name))))

/-- The per-relation loop body shared by the two loops of
BaseScenesStorage.get_next_scene (src/dialog/bases.py lines 311 to 332 and
334 to 356): relations are scanned in declaration order; a relation is
considered only when the event type is in its event-type set and its filter
chain accepts; the target is then resolved, the optional entry filters of the
target may veto the edge (scanning continues), and on acceptance the
on_transition hooks run and the target is returned.  Context mutations made
by any filter chain persist into the rest of the scan. -/
def scan_relations (reg : Registry) (event_type : String) :
    List Relation → Ctx → Except String (Option Scene × Ctx × List TraceEv)
  | [], ctx => .ok (none, ctx, [])
  | r :: rs, ctx =>
      if event_type ∈ r.filters.event_types then
        match r.filters.check ctx event_type with
        | .error e => .error e
        | .ok (passed, ctx₁) =>
            if passed then
              match r.get_scene reg ctx₁ with
              | .error e => .error e
              | .ok next_scene =>
                  match next_scene.filters with
                  | some g =>
                      match g.check ctx₁ event_type with
                      | .error e => .error e
                      | .ok (entry_passed, ctx₂) =>
                          if entry_passed then
                            .ok (some next_scene, ctx₂,
                                 run_on_transition r.on_transition ctx₂ next_scene)
                          else
                            scan_relations reg event_type rs ctx₂
                  | none =>
                      .ok (some next_scene, ctx₁,
                           run_on_transition r.on_transition ctx₁ next_scene)
            else
              scan_relations reg event_type rs ctx₁
      else
        scan_relations reg event_type rs ctx

/-- The router loop of get_next_scene (src/dialog/bases.py lines 334 to
356): every registered router is visited and its relations scanned with the
identical per-relation algorithm. -/
def scan_routers (reg : Registry) (event_type : String) :
    List Router → Ctx → Except String (Option Scene × Ctx × List TraceEv)
  | [], ctx => .ok (none, ctx, [])
  | router :: rest, ctx =>
      match scan_relations reg event_type router.relations ctx with
      | .error e => .error e
      | .ok (some s, ctx₁, tr) => .ok (some s, ctx₁, tr)
      | .ok (none, ctx₁, tr) =>
          match scan_routers reg event_type rest ctx₁ with
          | .error e => .error e
          | .ok (res, ctx₂, tr₂) => .ok (res, ctx₂, tr ++ tr₂)

/-- BaseScenesStorage.get_next_scene (src/dialog/bases.py lines 305 to 357):
scan the relations of the current scene when one is set; when that yields
nothing, scan every registered router; otherwise return None. -/
def get_next_scene (reg : Registry) (routers : List Router)
    (current_scene : Option Scene) (current_event_type : String) (ctx : Ctx) :
    Except String (Option Scene × Ctx × List TraceEv) :=
  match current_scene with
  | some cs =>
      match scan_relations reg current_event_type cs.relations ctx with
      | .error e => .error e
      | .ok (some s, ctx₁, tr) => .ok (some s, ctx₁, tr)
      | .ok (none, ctx₁, tr) =>
          match scan_routers reg current_event_type routers ctx₁ with
          | .error e => .error e
          | .ok (res, ctx₂, tr₂) => .ok (res, ctx₂, tr ++ tr₂)
  | none => scan_routers reg current_event_type routers ctx

/-- The mutable state one handler invocation threads along: the persisted
history of the session, the handler_kwargs context, and the log of hook and
view invocations performed so far. -/
structure EngineState where
  history : List String
  ctx : Ctx
  trace : List TraceEv

/-- The outcome of one iteration of the while-loop of
BaseHandler.default_handler. -/
inductive StepResult where
  | skipped : EngineState → StepResult
  | finished : EngineState → StepResult
  | continuing : Option Scene → Option Scene → EngineState → StepResult

/-- The full name of an optional scene, used for the identity comparison
current_scene != next_scene of src/dialog/bases.py line 524 (distinct
registered scenes always differ in full name, the registry key). -/
def scene_name? (s : Option Scene) : Option String :=
  s.map Scene.full_name

/-- The top of each iteration of the while-loop of
BaseHandler.default_handler (src/dialog/bases.py lines 502 to 504): store
the previous scene, the current scene and None under the three configured
context keys. -/
def loop_top_ctx (previous_scene current_scene : Option Scene) (ctx : Ctx) : Ctx :=
  dict_set
    (dict_set
      (dict_set ctx KEY_FOR_PREVIOUS_SCENES (scene_ref_of previous_scene))
      KEY_FOR_CURRENT_SCENES (scene_ref_of current_scene))
    KEY_FOR_NEXT_SCENES (.scene_ref none)

/-- The context the exit hooks observe (src/dialog/bases.py line 517): the
resolved target is stored under KEY_FOR_NEXT_SCENES before any exit hook
runs. -/
def exit_ctx (ctx₁ : Ctx) (next_scene : Scene) : Ctx :=
  dict_set ctx₁ KEY_FOR_NEXT_SCENES (.scene_ref (some next_scene.full_name))

/-- The context right after the exit phase (src/dialog/bases.py line 522):
the KEY_FOR_NEXT_SCENES slot is reset to None. -/
def after_exit_ctx (ctx₁ : Ctx) (next_scene : Scene) : Ctx :=
  dict_set (exit_ctx ctx₁ next_scene) KEY_FOR_NEXT_SCENES (.scene_ref none)

/-- The key shift of src/dialog/bases.py lines 529 and 530: the previous
scene key receives the old current scene and the current scene key receives
the entered scene. -/
def shift_ctx (ctx₂ : Ctx) (current_scene : Option Scene) (next_scene : Scene) :
    Ctx :=
  dict_set
    (dict_set ctx₂ KEY_FOR_PREVIOUS_SCENES (scene_ref_of current_scene))
    KEY_FOR_CURRENT_SCENES (.scene_ref (some next_scene.full_name))

/-- One iteration of the while-loop of BaseHandler.default_handler
(src/dialog/bases.py lines 501 to 540): store the scene keys, resolve the
next scene, either skip, or run the exit phase (exposing the pending target
under KEY_FOR_NEXT_SCENES, then resetting it), conditionally append to the
history, shift the scene keys, run the enter hooks and the view, and decide
whether to loop for a transitional scene. -/
def handler_step (reg : Registry) (routers : List Router) (event_type : String)
    (previous_scene current_scene : Option Scene) (st : EngineState) :
    Except String StepResult :=
  let ctx₀ := loop_top_ctx previous_scene current_scene st.ctx
  match get_next_scene reg routers current_scene event_type ctx₀ with
  | .error e => .error e
  | .ok (none, ctx₁, tr₁) =>
      .ok (.skipped { history := st.history, ctx := ctx₁, trace := st.trace ++ tr₁ })
  | .ok (some next_scene, ctx₁, tr₁) =>
      let exit_phase :
          Ctx × List TraceEv :=
        match current_scene with
        | some cs =>
            (after_exit_ctx ctx₁ next_scene,
             cs.on_exit.map (fun h => .on_exit_call h (exit_ctx ctx₁ next_scene)))
        | none => (ctx₁, [])
      let history₁ :=
        if next_scene.can_stay ∧ scene_name? current_scene ≠ some next_scene.full_name
        then set_current_scene st.history next_scene
        else st.history
      let ctx₃ := shift_ctx exit_phase.1 current_scene next_scene
      let enter_trace := next_scene.on_enter.map (fun h => TraceEv.on_enter_call h ctx₃)
      let view_trace := [TraceEv.view_call next_scene.full_name ctx₃]
      let st₁ : EngineState :=
        { history := history₁, ctx := ctx₃,
          trace := st.trace ++ tr₁ ++ exit_phase.2 ++ enter_trace ++ view_trace }
      if next_scene.is_transitional_scene
      then .ok (.continuing current_scene (some next_scene) st₁)
      else .ok (.finished st₁)

/-- How one handler invocation ended: the skip-handler outcome, normal
completion on a non-transitional scene, or fuel exhaustion (the source loop
has no built-in bound). -/
inductive RunResult where
  | skipped : RunResult
  | finished : RunResult
  | out_of_fuel : RunResult
  deriving DecidableEq, Repr

/-- The while-loop of BaseHandler.default_handler, with explicit fuel: each
iteration is handler_step, and a transitional target loops again with
previous_scene, current_scene := current_scene, next_scene, reusing the same
event type without fetching a new event. -/
def default_handler_loop (reg : Registry) (routers : List Router)
    (event_type : String) :
    Nat → Option Scene → Option Scene → EngineState →
    Except String (RunResult × EngineState)
  | 0, _, _, st => .ok (.out_of_fuel, st)
  | fuel + 1, previous_scene, current_scene, st =>
      match handler_step reg routers event_type previous_scene current_scene st with
      | .error e => .error e
      | .ok (.skipped st₁) => .ok (.skipped, st₁)
      | .ok (.finished st₁) => .ok (.finished, st₁)
      | .ok (.continuing p c st₁) =>
          default_handler_loop reg routers event_type fuel p c st₁

/-- BaseHandler.default_handler (src/dialog/bases.py lines 493 to 540): load
the previous and current scenes from the stored history, then run the loop. -/
def default_handler (reg : Registry) (routers : List Router)
    (event_type : String) (fuel : Nat) (history : List String) (ctx : Ctx) :
    Except String (RunResult × EngineState) :=
  match get_previous_scene reg history with
  | .error e => .error e
  | .ok previous_scene =>
      default_handler_loop reg routers event_type fuel
        previous_scene (get_current_scene reg history)
        { history := history, ctx := ctx, trace := [] }

/- ## Association-list (Python dict) lemmas -/

theorem dict_get_set_self {α : Type} (l : List (String × α)) (k : String) (v : α) :
    dict_get (dict_set l k v) k = some v := by
  induction l with
  | nil => simp [dict_get, dict_set]
  | cons hd tl ih =>
      obtain ⟨k', v'⟩ := hd
      by_cases h : k' = k
      · subst h
        simp [dict_get, dict_set]
      · simp [dict_get, dict_set, h, ih]

theorem dict_get_set_ne {α : Type} (l : List (String × α)) (k k' : String) (v : α)
    (h : k' ≠ k) : dict_get (dict_set l k v) k' = dict_get l k' := by
  have h' : ¬k = k' := Ne.symm h
  induction l with
  | nil => simp [dict_get, dict_set, h']
  | cons hd tl ih =>
      obtain ⟨k₀, v₀⟩ := hd
      by_cases hk : k₀ = k
      · subst hk
        simp [dict_get, dict_set, h']
      · simp [dict_get, dict_set, hk, ih]

theorem mem_keys_dict_set {α : Type} (l : List (String × α)) (k : String) (v : α)
    (a : String) :
    a ∈ (dict_set l k v).map Prod.fst ↔ a ∈ l.map Prod.fst ∨ a = k := by
  induction l with
  | nil => simp [dict_set]
  | cons hd tl ih =>
      obtain ⟨k₀, v₀⟩ := hd
      by_cases hk : k₀ = k
      · subst hk
        have hset : dict_set ((k₀, v₀) :: tl) k₀ v = (k₀, v) :: tl := by
          simp [dict_set]
        rw [hset]
        simp only [List.map_cons, List.mem_cons]
        tauto
      · simp only [dict_set, if_neg hk, List.map_cons, List.mem_cons, ih]
        tauto

theorem nodup_keys_dict_set {α : Type} (l : List (String × α)) (k : String) (v : α)
    (h : (l.map Prod.fst).Nodup) : ((dict_set l k v).map Prod.fst).Nodup := by
  induction l with
  | nil => simp [dict_set]
  | cons hd tl ih =>
      obtain ⟨k₀, v₀⟩ := hd
      simp only [List.map_cons, List.nodup_cons] at h
      by_cases hk : k₀ = k
      · subst hk
        have hset : dict_set ((k₀, v₀) :: tl) k₀ v = (k₀, v) :: tl := by
          simp [dict_set]
        rw [hset]
        simpa [List.nodup_cons] using h
      · simp only [dict_set, if_neg hk, List.map_cons, List.nodup_cons]
        refine ⟨fun hmem => ?_, ih h.2⟩
        rcases (mem_keys_dict_set tl k v k₀).mp hmem with hin | hin
        · exact h.1 hin
        · exact hk hin

/- ## Claim C2 -/

/-- Claim C2: evaluating a filter chain visits the predicates strictly in
declaration order; a mapping result is merged into the context with existing
keys overwritten and evaluation continues; the first false boolean stops
evaluation immediately and rejects with the context as mutated so far; an
exhausted chain (in particular an empty one) accepts; and the check method
runs exactly this loop on the predicate list registered for the event type. -/
theorem C2_check_algorithm :
    (∀ ctx : Ctx, check_predicates [] ctx = (true, ctx)) ∧
    (∀ (f : Predicate) (fs : List Predicate) (ctx : Ctx) (d : List (String × Val)),
       f ctx = .mapping d →
       check_predicates (f :: fs) ctx = check_predicates fs (ctx_update ctx d)) ∧
    (∀ (f : Predicate) (fs : List Predicate) (ctx : Ctx),
       f ctx = .boolean false →
       check_predicates (f :: fs) ctx = (false, ctx)) ∧
    (∀ (f : Predicate) (fs : List Predicate) (ctx : Ctx),
       f ctx = .boolean true →
       check_predicates (f :: fs) ctx = check_predicates fs ctx) ∧
    (∀ (ctx : Ctx) (k : String) (v : Val),
       dict_get (ctx_update ctx [(k, v)]) k = some v) ∧
    (∀ (g : FiltersGroup) (ctx : Ctx) (event_type : String) (fs : List Predicate),
       dict_get g.filters_to_check event_type = some fs →
       g.check ctx event_type = .ok (check_predicates fs ctx)) := by
  refine ⟨fun ctx => rfl, ?_, ?_, ?_, ?_, ?_⟩
  · intro f fs ctx d hf
    simp [check_predicates, hf]
  · intro f fs ctx hf
    simp [check_predicates, hf]
  · intro f fs ctx hf
    simp [check_predicates, hf]
  · intro ctx k v
    simpa [ctx_update] using dict_get_set_self ctx k v
  · intro g ctx event_type fs hl
    simp [FiltersGroup.check, hl]

/-- A mapping-returning predicate used to witness C2. -/
def w_pred_map : Predicate := fun _ => .mapping [("x", .vnat 1)]

/-- A rejecting predicate used to witness C2. -/
def w_pred_false : Predicate := fun _ => .boolean false

/-- An accepting predicate used to witness C2. -/
def w_pred_true : Predicate := fun _ => .boolean true

/-- A filters group used to witness C2. -/
def w_group : FiltersGroup :=
  { event_types := ["message"],
    filters_to_check := [("message", [w_pred_true])] }

theorem C2_check_algorithm_witness :
    check_predicates [] ([] : Ctx) = (true, []) ∧
    check_predicates [w_pred_map] [] = check_predicates [] (ctx_update [] [("x", .vnat 1)]) ∧
    check_predicates [w_pred_false] [] = (false, []) ∧
    check_predicates [w_pred_true] [] = check_predicates [] [] ∧
    dict_get (ctx_update [("x", .vnat 0)] [("x", .vnat 1)]) "x" = some (.vnat 1) ∧
    w_group.check [] "message" = .ok (check_predicates [w_pred_true] []) :=
  ⟨C2_check_algorithm.1 [],
   C2_check_algorithm.2.1 w_pred_map [] [] [("x", .vnat 1)] rfl,
   C2_check_algorithm.2.2.1 w_pred_false [] [] rfl,
   C2_check_algorithm.2.2.2.1 w_pred_true [] [] rfl,
   C2_check_algorithm.2.2.2.2.1 [("x", .vnat 0)] "x" (.vnat 1),
   C2_check_algorithm.2.2.2.2.2 w_group [] "message" [w_pred_true] rfl⟩

/-- A minimal concrete scene ns.a used by several witnesses. -/
def w_scene_a : Scene :=
  { name := "a", nspace := "ns", relations := [], filters := none,
    on_enter := [], on_exit := [], is_transitional_scene := false,
    can_stay := true }

/- ## Claim C5 -/

theorem set_current_scene_getLast (h : List String) (s : Scene) :
    (set_current_scene h s).getLast? = some s.full_name := by
  unfold set_current_scene
  cases hl : h.getLast? with
  | none => simp [List.getLast?_concat]
  | some last =>
      by_cases he : last = s.full_name
      · subst he
        simp [hl]
      · simp [he, List.getLast?_concat]

/-- Claim C5: set_current_scene appends the full name of the scene exactly
when it differs from the last history entry (or the history is empty); it is
idempotent under repetition, and the history length grows by at most one no
matter how many consecutive calls with the same scene are made. -/
theorem C5_set_current_scene_append_if_different :
    (∀ (h : List String) (s : Scene),
       h.getLast? = some s.full_name → set_current_scene h s = h) ∧
    (∀ (h : List String) (s : Scene),
       h.getLast? ≠ some s.full_name →
       set_current_scene h s = h ++ [s.full_name]) ∧
    (∀ (h : List String) (s : Scene),
       set_current_scene (set_current_scene h s) s = set_current_scene h s) ∧
    (∀ (h : List String) (s : Scene),
       (set_current_scene h s).length ≤ h.length + 1) ∧
    (∀ (h : List String) (s : Scene),
       (set_current_scene (set_current_scene h s) s).length ≤ h.length + 1) := by
  have h_eq : ∀ (h : List String) (s : Scene),
      h.getLast? = some s.full_name → set_current_scene h s = h := by
    intro h s hl
    unfold set_current_scene
    simp [hl]
  have h_ne : ∀ (h : List String) (s : Scene),
      h.getLast? ≠ some s.full_name → set_current_scene h s = h ++ [s.full_name] := by
    intro h s hl
    unfold set_current_scene
    cases hcase : h.getLast? with
    | none => simp
    | some last =>
        rw [hcase] at hl
        have : last ≠ s.full_name := fun he => hl (by rw [he])
        simp [this]
  have h_idem : ∀ (h : List String) (s : Scene),
      set_current_scene (set_current_scene h s) s = set_current_scene h s :=
    fun h s => h_eq _ s (set_current_scene_getLast h s)
  have h_len : ∀ (h : List String) (s : Scene),
      (set_current_scene h s).length ≤ h.length + 1 := by
    intro h s
    by_cases hl : h.getLast? = some s.full_name
    · rw [h_eq h s hl]; omega
    · rw [h_ne h s hl]; simp
  exact ⟨h_eq, h_ne, h_idem, h_len, fun h s => by rw [h_idem h s]; exact h_len h s⟩

theorem C5_set_current_scene_witness :
    set_current_scene ["ns.a"] w_scene_a = ["ns.a"] ∧
    set_current_scene [] w_scene_a = ["ns.a"] ∧
    set_current_scene (set_current_scene [] w_scene_a) w_scene_a =
      set_current_scene [] w_scene_a ∧
    (set_current_scene (set_current_scene [] w_scene_a) w_scene_a).length ≤ 1 :=
  ⟨C5_set_current_scene_append_if_different.1 ["ns.a"] w_scene_a rfl,
   C5_set_current_scene_append_if_different.2.1 [] w_scene_a (by simp),
   C5_set_current_scene_append_if_different.2.2.1 [] w_scene_a,
   C5_set_current_scene_append_if_different.2.2.2.2 [] w_scene_a⟩

/- ## Claim C8 -/

/-- A second scene with the same full name ns.a but a different can_stay
flag, used to exhibit the behaviour of duplicate registration. -/
def w_scene_a2 : Scene :=
  { name := "a", nspace := "ns", relations := [], filters := none,
    on_enter := [], on_exit := [], is_transitional_scene := false,
    can_stay := false }

/-- Claim C8 counterexample: registering a second scene whose full name is
already present is not rejected; register_scene is total and the second
registration is accepted, silently replacing the first entry. -/
theorem C8_duplicate_registration_not_rejected :
    register_scene (register_scene [] w_scene_a) w_scene_a2 =
      [("ns.a", w_scene_a2)] ∧
    w_scene_a2 ≠ w_scene_a := by
  constructor
  · rfl
  · intro h
    have := congrArg Scene.can_stay h
    simp [w_scene_a, w_scene_a2] at this

/-- Claim C8 (amended): full names are unique registry keys — registering a
scene binds its full name to it, leaves every other key unchanged, and
preserves key uniqueness — but a duplicate full name is not rejected at
init: the new scene silently overwrites the registered one. -/
theorem C8_register_scene_overwrites (reg : Registry) (s : Scene) :
    dict_get (register_scene reg s) s.full_name = some s ∧
    (∀ k, k ≠ s.full_name → dict_get (register_scene reg s) k = dict_get reg k) ∧
    ((reg.map Prod.fst).Nodup → ((register_scene reg s).map Prod.fst).Nodup) :=
  ⟨dict_get_set_self reg s.full_name s,
   fun k hk => dict_get_set_ne reg s.full_name k s hk,
   fun h => nodup_keys_dict_set reg s.full_name s h⟩

theorem C8_register_scene_overwrites_witness :
    dict_get (register_scene [("ns.a", w_scene_a)] w_scene_a2) "ns.a" =
      some w_scene_a2 ∧
    dict_get (register_scene [("ns.a", w_scene_a)] w_scene_a2) "zz" =
      dict_get [("ns.a", w_scene_a)] "zz" ∧
    ((register_scene [("ns.a", w_scene_a)] w_scene_a2).map Prod.fst).Nodup :=
  ⟨(C8_register_scene_overwrites [("ns.a", w_scene_a)] w_scene_a2).1,
   (C8_register_scene_overwrites [("ns.a", w_scene_a)] w_scene_a2).2.1 "zz"
     (by decide),
   (C8_register_scene_overwrites [("ns.a", w_scene_a)] w_scene_a2).2.2
     (by simp)⟩

/- ## Claim C10 -/

/-- Claim C10: init-phase resolution of a string target first qualifies a
dot-free name with the owning namespace, so a relation may name a sibling
scene by bare name; the (possibly qualified) name is then looked up in the
registry, a present name resolving to its scene and an absent one raising
RuntimeError at init rather than deferring the failure to event time. -/
theorem C10_init_scene_resolution :
    (∀ (nspace name : String), name.toList.count '.' = 0 →
       qualify_scene_name nspace name = nspace ++ "." ++ name) ∧
    (∀ (nspace name : String), name.toList.count '.' ≠ 0 →
       qualify_scene_name nspace name = name) ∧
    (∀ (reg : Registry) (nspace name : String) (s : Scene),
       name.toList.count '.' = 0 →
       dict_get reg (nspace ++ "." ++ name) = some s →
       init_scene reg nspace name = .ok (nspace ++ "." ++ name, s)) ∧
    (∀ (reg : Registry) (nspace name : String),
       name.toList.count '.' = 0 →
       dict_get reg (nspace ++ "." ++ name) = none →
       init_scene reg nspace name =
         .error ("Scene \x22" ++ (nspace ++ "." ++ name) ++ "\x22 not found")) := by
  have hq : ∀ (nspace name : String), name.toList.count '.' = 0 →
      qualify_scene_name nspace name = nspace ++ "." ++ name := by
    intro nspace name h
    unfold qualify_scene_name
    exact if_pos h
  refine ⟨hq, ?_, ?_, ?_⟩
  · intro nspace name h
    unfold qualify_scene_name
    exact if_neg h
  · intro reg nspace name s h hget
    unfold init_scene
    rw [hq nspace name h]
    simp [hget]
  · intro reg nspace name h hget
    unfold init_scene
    rw [hq nspace name h]
    simp [hget]

theorem C10_init_scene_resolution_witness :
    qualify_scene_name "ns" "a" = "ns.a" ∧
    qualify_scene_name "ns" "other.b" = "other.b" ∧
    init_scene [("ns.a", w_scene_a)] "ns" "a" = .ok ("ns.a", w_scene_a) ∧
    init_scene [] "ns" "a" = .error "Scene \x22ns.a\x22 not found" := by
  refine ⟨?_, ?_, ?_, ?_⟩
  · exact C10_init_scene_resolution.1 "ns" "a" (by decide)
  · exact C10_init_scene_resolution.2.1 "ns" "other.b" (by decide)
  · have := C10_init_scene_resolution.2.2.1 [("ns.a", w_scene_a)] "ns" "a"
      w_scene_a (by decide) (by rfl)
    simpa using this
  · have := C10_init_scene_resolution.2.2.2 [] "ns" "a" (by decide) rfl
    simpa using this

/- ## Case equations of the per-relation scan -/

theorem scan_cons_not_mem {reg : Registry} {ev : String} {r : Relation}
    {rs : List Relation} {ctx : Ctx} (hm : ev ∉ r.filters.event_types) :
    scan_relations reg ev (r :: rs) ctx = scan_relations reg ev rs ctx := by
  simp only [scan_relations, if_neg hm]

theorem scan_cons_check_error {reg : Registry} {ev : String} {r : Relation}
    {rs : List Relation} {ctx : Ctx} {e : String}
    (hm : ev ∈ r.filters.event_types) (hc : r.filters.check ctx ev = .error e) :
    scan_relations reg ev (r :: rs) ctx = .error e := by
  simp only [scan_relations, if_pos hm, hc]

theorem scan_cons_chain_reject {reg : Registry} {ev : String} {r : Relation}
    {rs : List Relation} {ctx ctx₁ : Ctx}
    (hm : ev ∈ r.filters.event_types)
    (hc : r.filters.check ctx ev = .ok (false, ctx₁)) :
    scan_relations reg ev (r :: rs) ctx = scan_relations reg ev rs ctx₁ := by
  simp only [scan_relations, if_pos hm, hc, Bool.false_eq_true, if_false]

theorem scan_cons_get_scene_error {reg : Registry} {ev : String} {r : Relation}
    {rs : List Relation} {ctx ctx₁ : Ctx} {e : String}
    (hm : ev ∈ r.filters.event_types)
    (hc : r.filters.check ctx ev = .ok (true, ctx₁))
    (hg : r.get_scene reg ctx₁ = .error e) :
    scan_relations reg ev (r :: rs) ctx = .error e := by
  simp only [scan_relations, if_pos hm, hc, if_true, hg]

theorem scan_cons_entry_error {reg : Registry} {ev : String} {r : Relation}
    {rs : List Relation} {ctx ctx₁ : Ctx} {s : Scene} {g : FiltersGroup} {e : String}
    (hm : ev ∈ r.filters.event_types)
    (hc : r.filters.check ctx ev = .ok (true, ctx₁))
    (hg : r.get_scene reg ctx₁ = .ok s) (hf : s.filters = some g)
    (he : g.check ctx₁ ev = .error e) :
    scan_relations reg ev (r :: rs) ctx = .error e := by
  simp only [scan_relations, if_pos hm, hc, if_true, hg, hf, he]

theorem scan_cons_entry_reject {reg : Registry} {ev : String} {r : Relation}
    {rs : List Relation} {ctx ctx₁ ctx₂ : Ctx} {s : Scene} {g : FiltersGroup}
    (hm : ev ∈ r.filters.event_types)
    (hc : r.filters.check ctx ev = .ok (true, ctx₁))
    (hg : r.get_scene reg ctx₁ = .ok s) (hf : s.filters = some g)
    (he : g.check ctx₁ ev = .ok (false, ctx₂)) :
    scan_relations reg ev (r :: rs) ctx = scan_relations reg ev rs ctx₂ := by
  simp only [scan_relations, if_pos hm, hc, if_true, hg, hf, he,
    Bool.false_eq_true, if_false]

theorem scan_cons_accept_entry {reg : Registry} {ev : String} {r : Relation}
    {rs : List Relation} {ctx ctx₁ ctx₂ : Ctx} {s : Scene} {g : FiltersGroup}
    (hm : ev ∈ r.filters.event_types)
    (hc : r.filters.check ctx ev = .ok (true, ctx₁))
    (hg : r.get_scene reg ctx₁ = .ok s) (hf : s.filters = some g)
    (he : g.check ctx₁ ev = .ok (true, ctx₂)) :
    scan_relations reg ev (r :: rs) ctx =
      .ok (some s, ctx₂, run_on_transition r.on_transition ctx₂ s) := by
  simp only [scan_relations, if_pos hm, hc, if_true, hg, hf, he]

theorem scan_cons_accept_no_entry {reg : Registry} {ev : String} {r : Relation}
    {rs : List Relation} {ctx ctx₁ : Ctx} {s : Scene}
    (hm : ev ∈ r.filters.event_types)
    (hc : r.filters.check ctx ev = .ok (true, ctx₁))
    (hg : r.get_scene reg ctx₁ = .ok s) (hf : s.filters = none) :
    scan_relations reg ev (r :: rs) ctx =
      .ok (some s, ctx₁, run_on_transition r.on_transition ctx₁ s) := by
  simp only [scan_relations, if_pos hm, hc, if_true, hg, hf]

/-- A scan that matched nothing performed no on_transition hook: its trace is
empty. -/
theorem scan_relations_none_trace {reg : Registry} {ev : String} :
    ∀ {rs : List Relation} {ctx ctx' : Ctx} {tr : List TraceEv},
      scan_relations reg ev rs ctx = .ok (none, ctx', tr) → tr = [] := by
  intro rs
  induction rs with
  | nil =>
      intro ctx ctx' tr h
      simp only [scan_relations, Except.ok.injEq, Prod.mk.injEq] at h
      exact h.2.2.symm
  | cons r rs ih =>
      intro ctx ctx' tr h
      by_cases hm : ev ∈ r.filters.event_types
      · rcases hc : r.filters.check ctx ev with e | ⟨passed, ctx₁⟩
        · rw [scan_cons_check_error hm hc] at h
          cases h
        · cases passed with
          | false =>
              rw [scan_cons_chain_reject hm hc] at h
              exact ih h
          | true =>
              rcases hg : r.get_scene reg ctx₁ with e | s
              · rw [scan_cons_get_scene_error hm hc hg] at h
                cases h
              · rcases hf : s.filters with _ | g
                · rw [scan_cons_accept_no_entry hm hc hg hf] at h
                  cases h
                · rcases he : g.check ctx₁ ev with e | ⟨entry_passed, ctx₂⟩
                  · rw [scan_cons_entry_error hm hc hg hf he] at h
                    cases h
                  · cases entry_passed with
                    | false =>
                        rw [scan_cons_entry_reject hm hc hg hf he] at h
                        exact ih h
                    | true =>
                        rw [scan_cons_accept_entry hm hc hg hf he] at h
                        simp at h
      · rw [scan_cons_not_mem hm] at h
        exact ih h

/-- Scanning a concatenation of relation lists: the second list is reached,
with the threaded context, exactly when the first produced nothing. -/
theorem scan_relations_append {reg : Registry} {ev : String} :
    ∀ (l₁ l₂ : List Relation) (ctx : Ctx),
      scan_relations reg ev (l₁ ++ l₂) ctx =
        match scan_relations reg ev l₁ ctx with
        | .error e => .error e
        | .ok (some s, ctx', tr) => .ok (some s, ctx', tr)
        | .ok (none, ctx', _) => scan_relations reg ev l₂ ctx' := by
  intro l₁
  induction l₁ with
  | nil =>
      intro l₂ ctx
      simp [scan_relations]
  | cons r rs ih =>
      intro l₂ ctx
      by_cases hm : ev ∈ r.filters.event_types
      · rcases hc : r.filters.check ctx ev with e | ⟨passed, ctx₁⟩
        · rw [List.cons_append, scan_cons_check_error hm hc,
            scan_cons_check_error hm hc]
        · cases passed with
          | false =>
              rw [List.cons_append, scan_cons_chain_reject hm hc,
                scan_cons_chain_reject hm hc, ih]
          | true =>
              rcases hg : r.get_scene reg ctx₁ with e | s
              · rw [List.cons_append, scan_cons_get_scene_error hm hc hg,
                  scan_cons_get_scene_error hm hc hg]
              · rcases hf : s.filters with _ | g
                · rw [List.cons_append, scan_cons_accept_no_entry hm hc hg hf,
                    scan_cons_accept_no_entry hm hc hg hf]
                · rcases he : g.check ctx₁ ev with e | ⟨entry_passed, ctx₂⟩
                  · rw [List.cons_append, scan_cons_entry_error hm hc hg hf he,
                      scan_cons_entry_error hm hc hg hf he]
                  · cases entry_passed with
                    | false =>
                        rw [List.cons_append, scan_cons_entry_reject hm hc hg hf he,
                          scan_cons_entry_reject hm hc hg hf he, ih]
                    | true =>
                        rw [List.cons_append, scan_cons_accept_entry hm hc hg hf he,
                          scan_cons_accept_entry hm hc hg hf he]
      · rw [List.cons_append, scan_cons_not_mem hm, scan_cons_not_mem hm, ih]

/-- A router scan that matched nothing performed no hook either. -/
theorem scan_routers_none_trace {reg : Registry} {ev : String} :
    ∀ {routers : List Router} {ctx ctx' : Ctx} {tr : List TraceEv},
      scan_routers reg ev routers ctx = .ok (none, ctx', tr) → tr = [] := by
  intro routers
  induction routers with
  | nil =>
      intro ctx ctx' tr h
      simp only [scan_routers, Except.ok.injEq, Prod.mk.injEq] at h
      exact h.2.2.symm
  | cons router rest ih =>
      intro ctx ctx' tr h
      rcases h₁ : scan_relations reg ev router.relations ctx with e | ⟨res, ctx₁, tr₁⟩
      · simp [scan_routers, h₁] at h
      · cases res with
        | some s => simp [scan_routers, h₁] at h
        | none =>
            rcases h₂ : scan_routers reg ev rest ctx₁ with e | ⟨res₂, ctx₂, tr₂⟩
            · simp [scan_routers, h₁, h₂] at h
            · simp only [scan_routers, h₁, h₂, Except.ok.injEq, Prod.mk.injEq] at h
              have htr₁ : tr₁ = [] := scan_relations_none_trace h₁
              have h₂' : scan_routers reg ev rest ctx₁ = .ok (none, ctx₂, tr₂) := by
                rw [h₂, h.1]
              have htr₂ : tr₂ = [] := ih h₂'
              rw [← h.2.2, htr₁, htr₂]
              rfl

/-- The router loop is the per-relation scan of the concatenation of all
router relation lists: every registered router is visited with the identical
per-relation algorithm, in order. -/
theorem scan_routers_eq_flat {reg : Registry} {ev : String} :
    ∀ (routers : List Router) (ctx : Ctx),
      scan_routers reg ev routers ctx =
        scan_relations reg ev ((routers.map Router.relations).flatten) ctx := by
  intro routers
  induction routers with
  | nil => intro ctx; simp [scan_routers, scan_relations]
  | cons router rest ih =>
      intro ctx
      rw [List.map_cons, List.flatten_cons, scan_relations_append]
      rcases h₁ : scan_relations reg ev router.relations ctx with e | ⟨res, ctx₁, tr₁⟩
      · simp [scan_routers, h₁]
      · cases res with
        | some s => simp [scan_routers, h₁]
        | none =>
            have htr₁ : tr₁ = [] := scan_relations_none_trace h₁
            subst htr₁
            rcases h₂ : scan_relations reg ev ((rest.map Router.relations).flatten) ctx₁
              with e | ⟨res₂, ctx₂, tr₂⟩ <;>
              simp [scan_routers, h₁, ih, h₂]

/- ## Equations of get_next_scene -/

theorem get_next_scene_no_current (reg : Registry) (routers : List Router)
    (ev : String) (ctx : Ctx) :
    get_next_scene reg routers none ev ctx = scan_routers reg ev routers ctx := rfl

theorem get_next_scene_scene_hit {reg : Registry} {routers : List Router}
    {ev : String} {cs : Scene} {ctx ctx' : Ctx} {s : Scene} {tr : List TraceEv}
    (hs : scan_relations reg ev cs.relations ctx = .ok (some s, ctx', tr)) :
    get_next_scene reg routers (some cs) ev ctx = .ok (some s, ctx', tr) := by
  simp [get_next_scene, hs]

theorem get_next_scene_fallthrough {reg : Registry} {routers : List Router}
    {ev : String} {cs : Scene} {ctx ctx₁ : Ctx} {tr : List TraceEv}
    (hs : scan_relations reg ev cs.relations ctx = .ok (none, ctx₁, tr)) :
    get_next_scene reg routers (some cs) ev ctx =
      scan_routers reg ev routers ctx₁ := by
  have htr : tr = [] := scan_relations_none_trace hs
  subst htr
  simp only [get_next_scene, hs]
  rcases h₂ : scan_routers reg ev routers ctx₁ with e | ⟨res, ctx₂, tr₂⟩
  · rfl
  · simp

/-- When get_next_scene resolves nothing, no hook ran and its trace is
empty. -/
theorem get_next_scene_none_trace {reg : Registry} {routers : List Router}
    {ev : String} {cur : Option Scene} {ctx ctx' : Ctx} {tr : List TraceEv}
    (h : get_next_scene reg routers cur ev ctx = .ok (none, ctx', tr)) :
    tr = [] := by
  cases cur with
  | none => exact scan_routers_none_trace h
  | some cs =>
      rcases h₁ : scan_relations reg ev cs.relations ctx with e | ⟨res, ctx₁, tr₁⟩
      · simp [get_next_scene, h₁] at h
      · cases res with
        | some s => simp [get_next_scene, h₁] at h
        | none =>
            rcases h₂ : scan_routers reg ev routers ctx₁ with e | ⟨res₂, ctx₂, tr₂⟩
            · simp [get_next_scene, h₁, h₂] at h
            · simp only [get_next_scene, h₁, h₂, Except.ok.injEq, Prod.mk.injEq] at h
              have htr₁ : tr₁ = [] := scan_relations_none_trace h₁
              have h₂' : scan_routers reg ev routers ctx₁ = .ok (none, ctx₂, tr₂) := by
                rw [h₂, h.1]
              have htr₂ : tr₂ = [] := scan_routers_none_trace h₂'
              rw [← h.2.2, htr₁, htr₂]
              rfl

/- ## Claim C1 -/

/-- Claim C1: with a current scene set, get_next_scene scans its relations in
declaration order; a relation is considered only when its event-type set
contains the event type; on the first relation whose filter chain accepts the
target is resolved, and when that target carries entry filters that reject,
the relation yields nothing and scanning continues with the subsequent
relations only (the rejected edge is never retried); on acceptance the
on_transition hooks of the relation run in order, each receiving the context
extended with the pending target, and the target scene is returned. -/
theorem C1_scene_relations_scan :
    (∀ (reg : Registry) (routers : List Router) (ev : String) (cs : Scene)
       (ctx : Ctx) (s : Scene) (ctx' : Ctx) (tr : List TraceEv),
       scan_relations reg ev cs.relations ctx = .ok (some s, ctx', tr) →
       get_next_scene reg routers (some cs) ev ctx = .ok (some s, ctx', tr)) ∧
    (∀ (reg : Registry) (ev : String) (r : Relation) (rs : List Relation)
       (ctx : Ctx),
       ev ∉ r.filters.event_types →
       scan_relations reg ev (r :: rs) ctx = scan_relations reg ev rs ctx) ∧
    (∀ (reg : Registry) (ev : String) (r : Relation) (rs : List Relation)
       (ctx ctx₁ : Ctx),
       ev ∈ r.filters.event_types →
       r.filters.check ctx ev = .ok (false, ctx₁) →
       scan_relations reg ev (r :: rs) ctx = scan_relations reg ev rs ctx₁) ∧
    (∀ (reg : Registry) (ev : String) (r : Relation) (rs : List Relation)
       (ctx ctx₁ : Ctx) (s : Scene) (g : FiltersGroup) (ctx₂ : Ctx),
       ev ∈ r.filters.event_types →
       r.filters.check ctx ev = .ok (true, ctx₁) →
       r.get_scene reg ctx₁ = .ok s →
       s.filters = some g →
       g.check ctx₁ ev = .ok (false, ctx₂) →
       scan_relations reg ev (r :: rs) ctx = scan_relations reg ev rs ctx₂) ∧
    (∀ (reg : Registry) (ev : String) (r : Relation) (rs : List Relation)
       (ctx ctx₁ : Ctx) (s : Scene) (g : FiltersGroup) (ctx₂ : Ctx),
       ev ∈ r.filters.event_types →
       r.filters.check ctx ev = .ok (true, ctx₁) →
       r.get_scene reg ctx₁ = .ok s →
       s.filters = some g →
       g.check ctx₁ ev = .ok (true, ctx₂) →
       scan_relations reg ev (r :: rs) ctx =
         .ok (some s, ctx₂, r.on_transition.map (fun hook =>
           .on_transition_call hook (dict_set ctx₂ KEY_FOR_NEXT_SCENES
             (.scene_ref (some s.full_name)))))) ∧
    (∀ (reg : Registry) (ev : String) (r : Relation) (rs : List Relation)
       (ctx ctx₁ : Ctx) (s : Scene),
       ev ∈ r.filters.event_types →
       r.filters.check ctx ev = .ok (true, ctx₁) →
       r.get_scene reg ctx₁ = .ok s →
       s.filters = none →
       scan_relations reg ev (r :: rs) ctx =
         .ok (some s, ctx₁, r.on_transition.map (fun hook =>
           .on_transition_call hook (dict_set ctx₁ KEY_FOR_NEXT_SCENES
             (.scene_ref (some s.full_name)))))) := by
  refine ⟨?_, ?_, ?_, ?_, ?_, ?_⟩
  · intro reg routers ev cs ctx s ctx' tr hs
    exact get_next_scene_scene_hit hs
  · intro reg ev r rs ctx hm
    exact scan_cons_not_mem hm
  · intro reg ev r rs ctx ctx₁ hm hc
    exact scan_cons_chain_reject hm hc
  · intro reg ev r rs ctx ctx₁ s g ctx₂ hm hc hg hf he
    exact scan_cons_entry_reject hm hc hg hf he
  · intro reg ev r rs ctx ctx₁ s g ctx₂ hm hc hg hf he
    rw [scan_cons_accept_entry hm hc hg hf he]
    rfl
  · intro reg ev r rs ctx ctx₁ s hm hc hg hf
    rw [scan_cons_accept_no_entry hm hc hg hf]
    rfl

/-- A filters group accepting nothing: its single predicate rejects. -/
def w_group_false : FiltersGroup :=
  { event_types := ["message"],
    filters_to_check := [("message", [w_pred_false])] }

/-- A filters group for a different event type. -/
def w_group_other : FiltersGroup :=
  { event_types := ["callback"],
    filters_to_check := [("callback", [])] }

/-- A scene whose entry filters reject. -/
def w_scene_g : Scene :=
  { name := "g", nspace := "ns", relations := [], filters := some w_group_false,
    on_enter := [], on_exit := [], is_transitional_scene := false,
    can_stay := true }

/-- A scene whose entry filters accept. -/
def w_scene_h : Scene :=
  { name := "h", nspace := "ns", relations := [], filters := some w_group,
    on_enter := [], on_exit := [], is_transitional_scene := false,
    can_stay := true }

/-- A concrete registry with the three witness targets. -/
def w_reg : Registry :=
  [("ns.a", w_scene_a), ("ns.g", w_scene_g), ("ns.h", w_scene_h)]

/-- Relation declared for a different event type. -/
def w_rel_other : Relation :=
  { to_scene_name := "ns.a", get_scene_func := none, filters := w_group_other,
    on_transition := [] }

/-- Relation whose own chain rejects. -/
def w_rel_reject : Relation :=
  { to_scene_name := "ns.a", get_scene_func := none, filters := w_group_false,
    on_transition := [] }

/-- Relation whose chain accepts but whose target entry filters reject. -/
def w_rel_g : Relation :=
  { to_scene_name := "ns.g", get_scene_func := none, filters := w_group,
    on_transition := [] }

/-- Relation whose chain accepts and whose target entry filters accept. -/
def w_rel_h : Relation :=
  { to_scene_name := "ns.h", get_scene_func := none, filters := w_group,
    on_transition := [] }

/-- Relation whose chain accepts toward the filterless target. -/
def w_rel_a : Relation :=
  { to_scene_name := "ns.a", get_scene_func := none, filters := w_group,
    on_transition := [] }

/-- A current scene owning one always-accepting relation. -/
def w_src : Scene :=
  { name := "s", nspace := "ns", relations := [w_rel_a], filters := none,
    on_enter := [], on_exit := [], is_transitional_scene := false,
    can_stay := true }

theorem C1_scene_relations_scan_witness :
    get_next_scene w_reg [] (some w_src) "message" [] =
      .ok (some w_scene_a, [], []) ∧
    scan_relations w_reg "message" [w_rel_other] [] =
      scan_relations w_reg "message" [] [] ∧
    scan_relations w_reg "message" [w_rel_reject] [] =
      scan_relations w_reg "message" [] [] ∧
    scan_relations w_reg "message" [w_rel_g] [] =
      scan_relations w_reg "message" [] [] ∧
    scan_relations w_reg "message" [w_rel_h] [] =
      .ok (some w_scene_h, [], []) ∧
    scan_relations w_reg "message" [w_rel_a] [] =
      .ok (some w_scene_a, [], []) :=
  ⟨C1_scene_relations_scan.1 w_reg [] "message" w_src [] w_scene_a [] [] rfl,
   C1_scene_relations_scan.2.1 w_reg "message" w_rel_other [] [] (by decide),
   C1_scene_relations_scan.2.2.1 w_reg "message" w_rel_reject [] [] []
     (by decide) rfl,
   C1_scene_relations_scan.2.2.2.1 w_reg "message" w_rel_g [] [] []
     w_scene_g w_group_false [] (by decide) rfl rfl rfl rfl,
   C1_scene_relations_scan.2.2.2.2.1 w_reg "message" w_rel_h [] [] []
     w_scene_h w_group [] (by decide) rfl rfl rfl rfl,
   C1_scene_relations_scan.2.2.2.2.2 w_reg "message" w_rel_a [] [] []
     w_scene_a (by decide) rfl rfl rfl⟩

/- ## Claim C3 -/

/-- Claim C3: when the scene-owned scan yields nothing (no current scene, or
no relation matched, or every matched edge was vetoed by the target entry
filters), get_next_scene scans every registered router with the identical
per-relation algorithm (the router loop equals the relation scan of the
concatenated router relation lists); when nothing matches anywhere it returns
None, and on None the handler returns the non-error skip outcome with no
hook invocation, no history write and no view call. -/
theorem C3_router_fallback :
    (∀ (reg : Registry) (routers : List Router) (ev : String) (ctx : Ctx),
       get_next_scene reg routers none ev ctx =
         scan_routers reg ev routers ctx) ∧
    (∀ (reg : Registry) (routers : List Router) (ev : String) (cs : Scene)
       (ctx ctx₁ : Ctx) (tr : List TraceEv),
       scan_relations reg ev cs.relations ctx = .ok (none, ctx₁, tr) →
       get_next_scene reg routers (some cs) ev ctx =
         scan_routers reg ev routers ctx₁) ∧
    (∀ (reg : Registry) (ev : String) (routers : List Router) (ctx : Ctx),
       scan_routers reg ev routers ctx =
         scan_relations reg ev ((routers.map Router.relations).flatten) ctx) ∧
    (∀ (reg : Registry) (routers : List Router) (ev : String) (cs : Scene)
       (ctx ctx₁ : Ctx) (tr₁ : List TraceEv) (ctx₂ : Ctx) (tr₂ : List TraceEv),
       scan_relations reg ev cs.relations ctx = .ok (none, ctx₁, tr₁) →
       scan_routers reg ev routers ctx₁ = .ok (none, ctx₂, tr₂) →
       get_next_scene reg routers (some cs) ev ctx = .ok (none, ctx₂, [])) ∧
    (∀ (reg : Registry) (routers : List Router) (ev : String)
       (prev cur : Option Scene) (st : EngineState) (ctx₁ : Ctx)
       (tr₁ : List TraceEv) (fuel : Nat),
       get_next_scene reg routers cur ev (loop_top_ctx prev cur st.ctx) =
         .ok (none, ctx₁, tr₁) →
       handler_step reg routers ev prev cur st =
         .ok (.skipped { history := st.history, ctx := ctx₁, trace := st.trace }) ∧
       default_handler_loop reg routers ev (fuel + 1) prev cur st =
         .ok (.skipped, { history := st.history, ctx := ctx₁, trace := st.trace })) := by
  refine ⟨?_, ?_, ?_, ?_, ?_⟩
  · intro reg routers ev ctx
    exact get_next_scene_no_current reg routers ev ctx
  · intro reg routers ev cs ctx ctx₁ tr hs
    exact get_next_scene_fallthrough hs
  · intro reg ev routers ctx
    exact scan_routers_eq_flat routers ctx
  · intro reg routers ev cs ctx ctx₁ tr₁ ctx₂ tr₂ h₁ h₂
    rw [get_next_scene_fallthrough h₁, h₂, scan_routers_none_trace h₂]
  · intro reg routers ev prev cur st ctx₁ tr₁ fuel h
    have htr : tr₁ = [] := get_next_scene_none_trace h
    subst htr
    constructor
    · simp [handler_step, h]
    · simp [default_handler_loop, handler_step, h]

/-- A router used by witnesses. -/
def w_router : Router := { nspace := "ns", relations := [w_rel_a] }

/-- A current scene whose single relation get rejected by its chain. -/
def w_src_miss : Scene :=
  { name := "m", nspace := "ns", relations := [w_rel_reject], filters := none,
    on_enter := [], on_exit := [], is_transitional_scene := false,
    can_stay := true }

/-- The context after the handler stores the three scene keys on an empty
kwargs dict with no previous and no current scene. -/
def w_ctx0 : Ctx :=
  [(KEY_FOR_PREVIOUS_SCENES, .scene_ref none),
   (KEY_FOR_CURRENT_SCENES, .scene_ref none),
   (KEY_FOR_NEXT_SCENES, .scene_ref none)]

theorem C3_router_fallback_witness :
    get_next_scene w_reg [w_router] none "message" [] =
      scan_routers w_reg "message" [w_router] [] ∧
    get_next_scene w_reg [w_router] (some w_src_miss) "message" [] =
      scan_routers w_reg "message" [w_router] [] ∧
    scan_routers w_reg "message" [w_router] [] =
      scan_relations w_reg "message" [w_rel_a] [] ∧
    get_next_scene w_reg [] (some w_src_miss) "message" [] = .ok (none, [], []) ∧
    (handler_step w_reg [] "message" none none ⟨[], [], []⟩ =
       .ok (.skipped ⟨[], w_ctx0, []⟩) ∧
     default_handler_loop w_reg [] "message" 1 none none ⟨[], [], []⟩ =
       .ok (.skipped, ⟨[], w_ctx0, []⟩)) :=
  ⟨C3_router_fallback.1 w_reg [w_router] "message" [],
   C3_router_fallback.2.1 w_reg [w_router] "message" w_src_miss [] [] [] rfl,
   C3_router_fallback.2.2.1 w_reg "message" [w_router] [],
   C3_router_fallback.2.2.2.1 w_reg [] "message" w_src_miss [] [] [] [] []
     rfl rfl,
   C3_router_fallback.2.2.2.2 w_reg [] "message" none none ⟨[], [], []⟩
     w_ctx0 [] 0 rfl⟩

/- ## Claim C7 -/

/-- Claim C7: a mapping returned by a predicate is merged into the shared
context before anything later runs, so the merged keys and values are
visible to every later predicate of the same chain, to the entry filters of
the target scene (which are evaluated on the chain-output context), and to
the on_transition hooks of the relation (which receive the final context
extended only with the pending-target key). -/
theorem C7_merged_context_visibility :
    (∀ (ctx : Ctx) (d : List (String × Val)) (fs : List Predicate),
       check_predicates ((fun _ => FilterResult.mapping d) :: fs) ctx =
         check_predicates fs (ctx_update ctx d)) ∧
    (∀ (ctx : Ctx) (k : String) (v : Val),
       dict_get (ctx_update ctx [(k, v)]) k = some v) ∧
    (∀ (reg : Registry) (ev : String) (r : Relation) (rs : List Relation)
       (ctx ctx₁ : Ctx) (s : Scene) (g : FiltersGroup),
       ev ∈ r.filters.event_types →
       r.filters.check ctx ev = .ok (true, ctx₁) →
       r.get_scene reg ctx₁ = .ok s →
       s.filters = some g →
       scan_relations reg ev (r :: rs) ctx =
         (match g.check ctx₁ ev with
          | .error e => .error e
          | .ok (false, ctx₂) => scan_relations reg ev rs ctx₂
          | .ok (true, ctx₂) =>
              .ok (some s, ctx₂, run_on_transition r.on_transition ctx₂ s))) ∧
    (∀ (hooks : List Nat) (ctx : Ctx) (s : Scene),
       run_on_transition hooks ctx s = hooks.map (fun hook =>
         .on_transition_call hook (dict_set ctx KEY_FOR_NEXT_SCENES
           (.scene_ref (some s.full_name))))) ∧
    (∀ (ctx : Ctx) (s : Scene) (k : String), k ≠ KEY_FOR_NEXT_SCENES →
       dict_get (dict_set ctx KEY_FOR_NEXT_SCENES
         (.scene_ref (some s.full_name))) k = dict_get ctx k) := by
  refine ⟨?_, ?_, ?_, ?_, ?_⟩
  · intro ctx d fs
    rfl
  · intro ctx k v
    simpa [ctx_update] using dict_get_set_self ctx k v
  · intro reg ev r rs ctx ctx₁ s g hm hc hg hf
    rcases he : g.check ctx₁ ev with e | ⟨b, ctx₂⟩
    · rw [scan_cons_entry_error hm hc hg hf he]
    · cases b with
      | false => rw [scan_cons_entry_reject hm hc hg hf he]
      | true => rw [scan_cons_accept_entry hm hc hg hf he]
  · intro hooks ctx s
    rfl
  · intro ctx s k hk
    exact dict_get_set_ne ctx KEY_FOR_NEXT_SCENES k _ hk

theorem C7_merged_context_visibility_witness :
    check_predicates [fun _ => FilterResult.mapping [("x", .vnat 1)]] [] =
      check_predicates [] (ctx_update [] [("x", .vnat 1)]) ∧
    dict_get (ctx_update [("x", .vnat 0)] [("x", .vnat 1)]) "x" =
      some (.vnat 1) ∧
    scan_relations w_reg "message" [w_rel_g] [] =
      (match w_group_false.check [] "message" with
       | .error e => Except.error e
       | .ok (false, ctx₂) => scan_relations w_reg "message" [] ctx₂
       | .ok (true, ctx₂) =>
           Except.ok (some w_scene_g, ctx₂,
                run_on_transition w_rel_g.on_transition ctx₂ w_scene_g)) ∧
    run_on_transition [5] [] w_scene_a = [TraceEv.on_transition_call 5
      (dict_set [] KEY_FOR_NEXT_SCENES (Val.scene_ref (some "ns.a")))] ∧
    dict_get (dict_set [("x", Val.vnat 1)] KEY_FOR_NEXT_SCENES
      (Val.scene_ref (some w_scene_a.full_name))) "x" =
      dict_get [("x", Val.vnat 1)] "x" :=
  ⟨C7_merged_context_visibility.1 [] [("x", .vnat 1)] [],
   C7_merged_context_visibility.2.1 [("x", .vnat 0)] "x" (.vnat 1),
   C7_merged_context_visibility.2.2.1 w_reg "message" w_rel_g [] [] []
     w_scene_g w_group_false (by decide) rfl rfl rfl,
   C7_merged_context_visibility.2.2.2.1 [5] [] w_scene_a,
   C7_merged_context_visibility.2.2.2.2 [("x", .vnat 1)] w_scene_a "x"
     (by decide)⟩

/- ## The resolved engine step -/

/-- The engine state carried by either outcome of one step. -/
def StepResult.state : StepResult → EngineState
  | .skipped st => st
  | .finished st => st
  | .continuing _ _ st => st

/-- The engine state produced by one handler iteration that resolved and
entered next_scene, starting from context output ctx₁ and resolver trace
tr₁: the exit phase runs only when a current scene exists, the history is
appended only for a can_stay target that differs from the current scene, and
the enter hooks and the view receive the shifted context. -/
def step_state (current_scene : Option Scene) (st : EngineState)
    (tr₁ : List TraceEv) (next_scene : Scene) (ctx₁ : Ctx) : EngineState :=
  let ctx₂ :=
    match current_scene with
    | some _ => after_exit_ctx ctx₁ next_scene
    | none => ctx₁
  let exit_trace :=
    match current_scene with
    | some cs => cs.on_exit.map (fun h => TraceEv.on_exit_call h (exit_ctx ctx₁ next_scene))
    | none => []
  let history₁ :=
    if next_scene.can_stay ∧ scene_name? current_scene ≠ some next_scene.full_name
    then set_current_scene st.history next_scene
    else st.history
  let ctx₃ := shift_ctx ctx₂ current_scene next_scene
  { history := history₁, ctx := ctx₃,
    trace := st.trace ++ tr₁ ++ exit_trace
      ++ next_scene.on_enter.map (fun h => TraceEv.on_enter_call h ctx₃)
      ++ [TraceEv.view_call next_scene.full_name ctx₃] }

/-- A step whose resolver produced a scene either finishes on it or, for a
transitional scene, continues with the scene pair shifted. -/
theorem handler_step_resolved {reg : Registry} {routers : List Router}
    {ev : String} {prev cur : Option Scene} {st : EngineState}
    {next_scene : Scene} {ctx₁ : Ctx} {tr₁ : List TraceEv}
    (h : get_next_scene reg routers cur ev (loop_top_ctx prev cur st.ctx) =
      .ok (some next_scene, ctx₁, tr₁)) :
    handler_step reg routers ev prev cur st =
      .ok (if next_scene.is_transitional_scene
           then .continuing cur (some next_scene)
             (step_state cur st tr₁ next_scene ctx₁)
           else .finished (step_state cur st tr₁ next_scene ctx₁)) := by
  by_cases ht : next_scene.is_transitional_scene <;>
    cases cur <;>
      simp [handler_step, h, step_state, ht]

/- ## Claim C9 -/

/-- Claim C9: in a loop iteration with a current scene, the engine stores the
resolved target under the next-scene key before the exit hooks run, so every
exit hook observes the pending target while every other context slot is
unchanged; the slot is reset to None immediately after the last exit hook
and before the history update and the enter/view phase, whose events all see
the slot as None. -/
theorem C9_exit_phase_next_scene_slot
    (reg : Registry) (routers : List Router) (ev : String)
    (prev : Option Scene) (cs : Scene) (st : EngineState)
    (next_scene : Scene) (ctx₁ : Ctx) (tr₁ : List TraceEv)
    (h : get_next_scene reg routers (some cs) ev
      (loop_top_ctx prev (some cs) st.ctx) = .ok (some next_scene, ctx₁, tr₁)) :
    handler_step reg routers ev prev (some cs) st =
      .ok (if next_scene.is_transitional_scene
           then .continuing (some cs) (some next_scene)
             (step_state (some cs) st tr₁ next_scene ctx₁)
           else .finished (step_state (some cs) st tr₁ next_scene ctx₁)) ∧
    (step_state (some cs) st tr₁ next_scene ctx₁).trace =
      st.trace ++ tr₁
        ++ cs.on_exit.map (fun hook =>
             TraceEv.on_exit_call hook (exit_ctx ctx₁ next_scene))
        ++ next_scene.on_enter.map (fun hook => TraceEv.on_enter_call hook
             (shift_ctx (after_exit_ctx ctx₁ next_scene) (some cs) next_scene))
        ++ [TraceEv.view_call next_scene.full_name
             (shift_ctx (after_exit_ctx ctx₁ next_scene) (some cs) next_scene)] ∧
    dict_get (exit_ctx ctx₁ next_scene) KEY_FOR_NEXT_SCENES =
      some (.scene_ref (some next_scene.full_name)) ∧
    (∀ k, k ≠ KEY_FOR_NEXT_SCENES →
       dict_get (exit_ctx ctx₁ next_scene) k = dict_get ctx₁ k) ∧
    dict_get (after_exit_ctx ctx₁ next_scene) KEY_FOR_NEXT_SCENES =
      some (.scene_ref none) ∧
    (∀ k, k ≠ KEY_FOR_NEXT_SCENES →
       dict_get (after_exit_ctx ctx₁ next_scene) k = dict_get ctx₁ k) ∧
    dict_get (shift_ctx (after_exit_ctx ctx₁ next_scene) (some cs) next_scene)
      KEY_FOR_NEXT_SCENES = some (.scene_ref none) := by
  refine ⟨handler_step_resolved h, rfl, ?_, ?_, ?_, ?_, ?_⟩
  · exact dict_get_set_self ctx₁ KEY_FOR_NEXT_SCENES _
  · intro k hk
    exact dict_get_set_ne ctx₁ KEY_FOR_NEXT_SCENES k _ hk
  · exact dict_get_set_self _ KEY_FOR_NEXT_SCENES _
  · intro k hk
    rw [after_exit_ctx, dict_get_set_ne _ _ _ _ hk, exit_ctx,
      dict_get_set_ne _ _ _ _ hk]
  · rw [shift_ctx, dict_get_set_ne _ _ _ _ (by decide),
      dict_get_set_ne _ _ _ _ (by decide)]
    exact dict_get_set_self _ KEY_FOR_NEXT_SCENES _

theorem C9_exit_phase_next_scene_slot_witness :
    dict_get (exit_ctx (loop_top_ctx none (some w_src) []) w_scene_a)
      KEY_FOR_NEXT_SCENES = some (.scene_ref (some "ns.a")) ∧
    dict_get (after_exit_ctx (loop_top_ctx none (some w_src) []) w_scene_a)
      KEY_FOR_NEXT_SCENES = some (.scene_ref none) ∧
    dict_get (shift_ctx (after_exit_ctx (loop_top_ctx none (some w_src) [])
        w_scene_a) (some w_src) w_scene_a)
      KEY_FOR_NEXT_SCENES = some (.scene_ref none) :=
  ⟨(C9_exit_phase_next_scene_slot w_reg [] "message" none w_src ⟨[], [], []⟩
      w_scene_a (loop_top_ctx none (some w_src) []) [] rfl).2.2.1,
   (C9_exit_phase_next_scene_slot w_reg [] "message" none w_src ⟨[], [], []⟩
      w_scene_a (loop_top_ctx none (some w_src) []) [] rfl).2.2.2.2.1,
   (C9_exit_phase_next_scene_slot w_reg [] "message" none w_src ⟨[], [], []⟩
      w_scene_a (loop_top_ctx none (some w_src) []) [] rfl).2.2.2.2.2.2⟩

/- ## Claim C6 -/

/-- A filters group with an empty predicate chain for message events: an
exhausted chain accepts. -/
def w_group_empty : FiltersGroup :=
  { event_types := ["message"], filters_to_check := [("message", [])] }

/-- An unconditional relation from the cyclic scene back to itself. -/
def cyc_rel : Relation :=
  { to_scene_name := "ns.t", get_scene_func := none, filters := w_group_empty,
    on_transition := [] }

/-- A transitional scene whose only relation targets itself. -/
def cyc_scene : Scene :=
  { name := "t", nspace := "ns", relations := [cyc_rel], filters := none,
    on_enter := [], on_exit := [], is_transitional_scene := true,
    can_stay := true }

/-- The registry holding only the cyclic transitional scene. -/
def cyc_reg : Registry := [("ns.t", cyc_scene)]

/-- Claim C6: entering a transitional scene makes the engine run another
resolution pass immediately, with previousScene shifted to the old current
scene and currentScene to the entered scene, reusing the same event type
without fetching a new event; the per-event loop stops exactly when the
entered scene is not transitional (finished) or the resolver returns none
(skipped); and the loop has no built-in bound: on a cycle of transitional
scenes it exhausts any amount of fuel. -/
theorem C6_transitional_loop :
    (∀ (reg : Registry) (routers : List Router) (ev : String)
       (prev cur : Option Scene) (st : EngineState) (next_scene : Scene)
       (ctx₁ : Ctx) (tr₁ : List TraceEv),
       get_next_scene reg routers cur ev (loop_top_ctx prev cur st.ctx) =
         .ok (some next_scene, ctx₁, tr₁) →
       next_scene.is_transitional_scene = true →
       handler_step reg routers ev prev cur st =
         .ok (.continuing cur (some next_scene)
           (step_state cur st tr₁ next_scene ctx₁))) ∧
    (∀ (reg : Registry) (routers : List Router) (ev : String)
       (prev cur : Option Scene) (st : EngineState) (next_scene : Scene)
       (ctx₁ : Ctx) (tr₁ : List TraceEv),
       get_next_scene reg routers cur ev (loop_top_ctx prev cur st.ctx) =
         .ok (some next_scene, ctx₁, tr₁) →
       next_scene.is_transitional_scene = false →
       handler_step reg routers ev prev cur st =
         .ok (.finished (step_state cur st tr₁ next_scene ctx₁))) ∧
    (∀ (reg : Registry) (routers : List Router) (ev : String) (fuel : Nat)
       (prev cur : Option Scene) (st : EngineState) (p c : Option Scene)
       (st₁ : EngineState),
       handler_step reg routers ev prev cur st = .ok (.continuing p c st₁) →
       default_handler_loop reg routers ev (fuel + 1) prev cur st =
         default_handler_loop reg routers ev fuel p c st₁) ∧
    (∀ (reg : Registry) (routers : List Router) (ev : String) (fuel : Nat)
       (prev cur : Option Scene) (st st₁ : EngineState),
       handler_step reg routers ev prev cur st = .ok (.finished st₁) →
       default_handler_loop reg routers ev (fuel + 1) prev cur st =
         .ok (.finished, st₁)) ∧
    (∀ (reg : Registry) (routers : List Router) (ev : String) (fuel : Nat)
       (prev cur : Option Scene) (st st₁ : EngineState),
       handler_step reg routers ev prev cur st = .ok (.skipped st₁) →
       default_handler_loop reg routers ev (fuel + 1) prev cur st =
         .ok (.skipped, st₁)) ∧
    (∀ (fuel : Nat) (prev : Option Scene) (st : EngineState),
       ∃ st', default_handler_loop cyc_reg [] "message" fuel prev
         (some cyc_scene) st = .ok (.out_of_fuel, st')) := by
  refine ⟨?_, ?_, ?_, ?_, ?_, ?_⟩
  · intro reg routers ev prev cur st next_scene ctx₁ tr₁ h ht
    rw [handler_step_resolved h, ht]
    rfl
  · intro reg routers ev prev cur st next_scene ctx₁ tr₁ h ht
    rw [handler_step_resolved h, ht]
    rfl
  · intro reg routers ev fuel prev cur st p c st₁ h
    simp [default_handler_loop, h]
  · intro reg routers ev fuel prev cur st st₁ h
    simp [default_handler_loop, h]
  · intro reg routers ev fuel prev cur st st₁ h
    simp [default_handler_loop, h]
  · intro fuel
    induction fuel with
    | zero => intro prev st; exact ⟨st, rfl⟩
    | succ n ih =>
        intro prev st
        have hres : get_next_scene cyc_reg [] (some cyc_scene) "message"
            (loop_top_ctx prev (some cyc_scene) st.ctx) =
            .ok (some cyc_scene, loop_top_ctx prev (some cyc_scene) st.ctx, []) := rfl
        have hstep : handler_step cyc_reg [] "message" prev (some cyc_scene) st =
            .ok (.continuing (some cyc_scene) (some cyc_scene)
              (step_state (some cyc_scene) st [] cyc_scene
                (loop_top_ctx prev (some cyc_scene) st.ctx))) := by
          simpa using handler_step_resolved hres
        obtain ⟨st', hst'⟩ := ih (some cyc_scene)
          (step_state (some cyc_scene) st [] cyc_scene
            (loop_top_ctx prev (some cyc_scene) st.ctx))
        refine ⟨st', ?_⟩
        simp [default_handler_loop, hstep, hst']

theorem C6_transitional_loop_witness :
    handler_step cyc_reg [] "message" none (some cyc_scene) ⟨[], [], []⟩ =
      .ok (.continuing (some cyc_scene) (some cyc_scene)
        (step_state (some cyc_scene) ⟨[], [], []⟩ [] cyc_scene
          (loop_top_ctx none (some cyc_scene) []))) ∧
    handler_step w_reg [] "message" none (some w_src) ⟨[], [], []⟩ =
      .ok (.finished (step_state (some w_src) ⟨[], [], []⟩ [] w_scene_a
        (loop_top_ctx none (some w_src) []))) ∧
    default_handler_loop cyc_reg [] "message" 1 none (some cyc_scene)
        ⟨[], [], []⟩ =
      default_handler_loop cyc_reg [] "message" 0 (some cyc_scene)
        (some cyc_scene)
        (step_state (some cyc_scene) ⟨[], [], []⟩ [] cyc_scene
          (loop_top_ctx none (some cyc_scene) [])) ∧
    default_handler_loop w_reg [] "message" 1 none (some w_src) ⟨[], [], []⟩ =
      .ok (.finished, step_state (some w_src) ⟨[], [], []⟩ [] w_scene_a
        (loop_top_ctx none (some w_src) [])) ∧
    default_handler_loop w_reg [] "message" 1 none none ⟨[], [], []⟩ =
      .ok (.skipped, ⟨[], w_ctx0, []⟩) :=
  ⟨C6_transitional_loop.1 cyc_reg [] "message" none (some cyc_scene)
     ⟨[], [], []⟩ cyc_scene (loop_top_ctx none (some cyc_scene) []) [] rfl rfl,
   C6_transitional_loop.2.1 w_reg [] "message" none (some w_src) ⟨[], [], []⟩
     w_scene_a (loop_top_ctx none (some w_src) []) [] rfl rfl,
   C6_transitional_loop.2.2.1 cyc_reg [] "message" 0 none (some cyc_scene)
     ⟨[], [], []⟩ (some cyc_scene) (some cyc_scene)
     (step_state (some cyc_scene) ⟨[], [], []⟩ [] cyc_scene
       (loop_top_ctx none (some cyc_scene) [])) rfl,
   C6_transitional_loop.2.2.2.1 w_reg [] "message" 0 none (some w_src)
     ⟨[], [], []⟩
     (step_state (some w_src) ⟨[], [], []⟩ [] w_scene_a
       (loop_top_ctx none (some w_src) [])) rfl,
   C6_transitional_loop.2.2.2.2.1 w_reg [] "message" 0 none none ⟨[], [], []⟩
     ⟨[], w_ctx0, []⟩ rfl⟩

/- ## Claim C4 -/

/-- A scene resolved by a relation always comes out of the registry. -/
theorem get_scene_ok_in_reg {reg : Registry} {r : Relation} {ctx : Ctx}
    {s : Scene} (h : r.get_scene reg ctx = .ok s) :
    ∃ k, dict_get reg k = some s := by
  rcases hf : r.get_scene_func with _ | f
  · rcases hd : dict_get reg r.to_scene_name with _ | s'
    · simp [Relation.get_scene, hf, hd] at h
    · simp only [Relation.get_scene, hf, hd, Except.ok.injEq] at h
      subst h
      exact ⟨r.to_scene_name, hd⟩
  · rcases hd : dict_get reg (f ctx) with _ | s'
    · simp [Relation.get_scene, hf, hd] at h
    · simp only [Relation.get_scene, hf, hd, Except.ok.injEq] at h
      subst h
      exact ⟨f ctx, hd⟩

/-- A scene produced by the relation scan comes out of the registry. -/
theorem scan_relations_some_in_reg {reg : Registry} {ev : String} :
    ∀ {rs : List Relation} {ctx ctx' : Ctx} {s : Scene} {tr : List TraceEv},
      scan_relations reg ev rs ctx = .ok (some s, ctx', tr) →
      ∃ k, dict_get reg k = some s := by
  intro rs
  induction rs with
  | nil =>
      intro ctx ctx' s tr h
      simp [scan_relations] at h
  | cons r rs ih =>
      intro ctx ctx' s tr h
      by_cases hm : ev ∈ r.filters.event_types
      · rcases hc : r.filters.check ctx ev with e | ⟨passed, ctx₁⟩
        · rw [scan_cons_check_error hm hc] at h
          cases h
        · cases passed with
          | false =>
              rw [scan_cons_chain_reject hm hc] at h
              exact ih h
          | true =>
              rcases hg : r.get_scene reg ctx₁ with e | s₀
              · rw [scan_cons_get_scene_error hm hc hg] at h
                cases h
              · rcases hf : s₀.filters with _ | g
                · rw [scan_cons_accept_no_entry hm hc hg hf] at h
                  simp only [Except.ok.injEq, Prod.mk.injEq,
                    Option.some.injEq] at h
                  rw [← h.1]
                  exact get_scene_ok_in_reg hg
                · rcases he : g.check ctx₁ ev with e | ⟨entry_passed, ctx₂⟩
                  · rw [scan_cons_entry_error hm hc hg hf he] at h
                    cases h
                  · cases entry_passed with
                    | false =>
                        rw [scan_cons_entry_reject hm hc hg hf he] at h
                        exact ih h
                    | true =>
                        rw [scan_cons_accept_entry hm hc hg hf he] at h
                        simp only [Except.ok.injEq, Prod.mk.injEq,
                          Option.some.injEq] at h
                        rw [← h.1]
                        exact get_scene_ok_in_reg hg
      · rw [scan_cons_not_mem hm] at h
        exact ih h

/-- A scene produced by the router scan comes out of the registry. -/
theorem scan_routers_some_in_reg {reg : Registry} {ev : String} :
    ∀ {routers : List Router} {ctx ctx' : Ctx} {s : Scene} {tr : List TraceEv},
      scan_routers reg ev routers ctx = .ok (some s, ctx', tr) →
      ∃ k, dict_get reg k = some s := by
  intro routers
  induction routers with
  | nil =>
      intro ctx ctx' s tr h
      simp [scan_routers] at h
  | cons router rest ih =>
      intro ctx ctx' s tr h
      rcases h₁ : scan_relations reg ev router.relations ctx with e | ⟨res, ctx₁, tr₁⟩
      · simp [scan_routers, h₁] at h
      · cases res with
        | some s₀ =>
            simp only [scan_routers, h₁, Except.ok.injEq, Prod.mk.injEq,
              Option.some.injEq] at h
            rw [← h.1]
            exact scan_relations_some_in_reg h₁
        | none =>
            rcases h₂ : scan_routers reg ev rest ctx₁ with e | ⟨res₂, ctx₂, tr₂⟩
            · simp [scan_routers, h₁, h₂] at h
            · simp only [scan_routers, h₁, h₂, Except.ok.injEq,
                Prod.mk.injEq] at h
              rcases res₂ with _ | s₂
              · cases h.1
              · have h₂' : scan_routers reg ev rest ctx₁ =
                    .ok (some s, ctx₂, tr₂) := by
                  rw [h₂, h.1]
                exact ih h₂'

/-- A scene resolved by get_next_scene comes out of the registry. -/
theorem get_next_scene_some_in_reg {reg : Registry} {routers : List Router}
    {ev : String} {cur : Option Scene} {ctx ctx' : Ctx} {s : Scene}
    {tr : List TraceEv}
    (h : get_next_scene reg routers cur ev ctx = .ok (some s, ctx', tr)) :
    ∃ k, dict_get reg k = some s := by
  cases cur with
  | none => exact scan_routers_some_in_reg h
  | some cs =>
      rcases h₁ : scan_relations reg ev cs.relations ctx with e | ⟨res, ctx₁, tr₁⟩
      · simp [get_next_scene, h₁] at h
      · cases res with
        | some s₀ =>
            simp only [get_next_scene, h₁, Except.ok.injEq, Prod.mk.injEq,
              Option.some.injEq] at h
            rw [← h.1]
            exact scan_relations_some_in_reg h₁
        | none =>
            rcases h₂ : scan_routers reg ev routers ctx₁ with e | ⟨res₂, ctx₂, tr₂⟩
            · simp [get_next_scene, h₁, h₂] at h
            · simp only [get_next_scene, h₁, h₂, Except.ok.injEq,
                Prod.mk.injEq] at h
              rcases res₂ with _ | s₂
              · cases h.1
              · have h₂' : scan_routers reg ev routers ctx₁ =
                    .ok (some s, ctx₂, tr₂) := by
                  rw [h₂, h.1]
                exact scan_routers_some_in_reg h₂'

/-- Membership after an append-if-different write. -/
theorem mem_set_current_scene {h : List String} {s : Scene} {n : String}
    (hm : n ∈ set_current_scene h s) : n ∈ h ∨ n = s.full_name := by
  rcases hl : h.getLast? with _ | last
  · simp only [set_current_scene, hl, List.mem_append,
      List.mem_singleton] at hm
    exact hm
  · by_cases he : last = s.full_name
    · simp only [set_current_scene, hl, he, ne_eq, not_true_eq_false,
        if_false, ite_not, if_pos rfl] at hm
      exact Or.inl hm
    · simp only [set_current_scene, hl, ne_eq, he, not_false_eq_true,
        if_true, List.mem_append, List.mem_singleton] at hm
      exact hm

/-- What one handler iteration does to the history: it is unchanged, or it is
an append-if-different write of a can_stay registry scene that differs from
the current scene. -/
theorem handler_step_history {reg : Registry} {routers : List Router}
    {ev : String} {prev cur : Option Scene} {st : EngineState} {r : StepResult}
    (h : handler_step reg routers ev prev cur st = .ok r) :
    r.state.history = st.history ∨
    ∃ s : Scene, (∃ k, dict_get reg k = some s) ∧ s.can_stay = true ∧
      scene_name? cur ≠ some s.full_name ∧
      r.state.history = set_current_scene st.history s := by
  rcases hg : get_next_scene reg routers cur ev (loop_top_ctx prev cur st.ctx)
    with e | ⟨res, ctx₁, tr₁⟩
  · simp [handler_step, hg] at h
  · cases res with
    | none =>
        have hsk : handler_step reg routers ev prev cur st =
            .ok (.skipped ⟨st.history, ctx₁, st.trace ++ tr₁⟩) := by
          simp [handler_step, hg]
        rw [hsk] at h
        injection h with h'
        subst h'
        exact Or.inl rfl
    | some next_scene =>
        rw [handler_step_resolved hg] at h
        injection h with h'
        subst h'
        by_cases hcond : next_scene.can_stay = true ∧
            scene_name? cur ≠ some next_scene.full_name
        · refine Or.inr ⟨next_scene, get_next_scene_some_in_reg hg,
            hcond.1, hcond.2, ?_⟩
          by_cases ht : next_scene.is_transitional_scene <;>
            simp [StepResult.state, step_state, ht, hcond]
        · refine Or.inl ?_
          by_cases ht : next_scene.is_transitional_scene <;>
            simp [StepResult.state, step_state, ht, hcond]

/-- The last element of a list is a member. -/
theorem mem_of_getLast? {α : Type} {l : List α} {n : α}
    (h : l.getLast? = some n) : n ∈ l := by
  rcases List.mem_getLast?_eq_getLast (Option.mem_def.mpr h) with ⟨hne, heq⟩
  rw [heq]
  exact List.getLast_mem hne

/-- Any name in the history of a step outcome was already there or names a
can_stay registry scene. -/
theorem handler_step_mem {reg : Registry} {routers : List Router} {ev : String}
    {prev cur : Option Scene} {st : EngineState} {r : StepResult}
    (hs : handler_step reg routers ev prev cur st = .ok r) :
    ∀ n, n ∈ r.state.history → n ∈ st.history ∨
      ∃ s : Scene, (∃ k, dict_get reg k = some s) ∧ s.can_stay = true ∧
        n = s.full_name := by
  intro n hn
  rcases handler_step_history hs with heq | ⟨s, hreg, hstay, _, heq⟩
  · rw [heq] at hn
    exact Or.inl hn
  · rw [heq] at hn
    rcases mem_set_current_scene hn with hin | hin
    · exact Or.inl hin
    · exact Or.inr ⟨s, hreg, hstay, hin⟩

/-- The loop invariant: every name ever appended during the fueled handler
loop names a can_stay registry scene. -/
theorem default_handler_loop_history {reg : Registry} {routers : List Router}
    {ev : String} :
    ∀ (fuel : Nat) (prev cur : Option Scene) (st : EngineState)
      (res : RunResult) (st' : EngineState),
      default_handler_loop reg routers ev fuel prev cur st = .ok (res, st') →
      ∀ n, n ∈ st'.history → n ∈ st.history ∨
        ∃ s : Scene, (∃ k, dict_get reg k = some s) ∧ s.can_stay = true ∧
          n = s.full_name := by
  intro fuel
  induction fuel with
  | zero =>
      intro prev cur st res st' h n hn
      simp only [default_handler_loop, Except.ok.injEq, Prod.mk.injEq] at h
      rw [← h.2] at hn
      exact Or.inl hn
  | succ m ih =>
      intro prev cur st res st' h n hn
      rcases hs : handler_step reg routers ev prev cur st with e | r
      · simp [default_handler_loop, hs] at h
      · cases r with
        | skipped st₁ =>
            simp only [default_handler_loop, hs, Except.ok.injEq,
              Prod.mk.injEq] at h
            rw [← h.2] at hn
            exact handler_step_mem hs n hn
        | finished st₁ =>
            simp only [default_handler_loop, hs, Except.ok.injEq,
              Prod.mk.injEq] at h
            rw [← h.2] at hn
            exact handler_step_mem hs n hn
        | continuing p c st₁ =>
            have hloop : default_handler_loop reg routers ev (m + 1) prev cur st =
                default_handler_loop reg routers ev m p c st₁ := by
              simp [default_handler_loop, hs]
            rw [hloop] at h
            rcases ih p c st₁ res st' h n hn with hin | hgood
            · exact handler_step_mem hs n hin
            · exact Or.inr hgood

/-- The run-level invariant, from the stored history. -/
theorem default_handler_history {reg : Registry} {routers : List Router}
    {ev : String} {fuel : Nat} {history : List String} {ctx : Ctx}
    {res : RunResult} {st' : EngineState}
    (h : default_handler reg routers ev fuel history ctx = .ok (res, st')) :
    ∀ n, n ∈ st'.history → n ∈ history ∨
      ∃ s : Scene, (∃ k, dict_get reg k = some s) ∧ s.can_stay = true ∧
        n = s.full_name := by
  rcases hp : get_previous_scene reg history with e | prev
  · simp [default_handler, hp] at h
  · simp only [default_handler, hp] at h
    exact default_handler_loop_history fuel prev
      (get_current_scene reg history) ⟨history, ctx, []⟩ res st' h

/-- Claim C4: the engine calls set_current_scene only when the resolved
target has can_stay true and its full name differs from the current scene;
hence every name the engine ever appends to the persisted history names a
can_stay registry scene, and a scene with can_stay false never becomes the
last element of a history the engine writes unless its name was already in
the stored history. -/
theorem C4_can_stay_invariant :
    (∀ (reg : Registry) (routers : List Router) (ev : String)
       (prev cur : Option Scene) (st : EngineState) (r : StepResult),
       handler_step reg routers ev prev cur st = .ok r →
       r.state.history = st.history ∨
       ∃ s : Scene, (∃ k, dict_get reg k = some s) ∧ s.can_stay = true ∧
         scene_name? cur ≠ some s.full_name ∧
         r.state.history = set_current_scene st.history s) ∧
    (∀ (reg : Registry) (routers : List Router) (ev : String) (fuel : Nat)
       (history : List String) (ctx : Ctx) (res : RunResult)
       (st' : EngineState),
       default_handler reg routers ev fuel history ctx = .ok (res, st') →
       ∀ n, n ∈ st'.history → n ∈ history ∨
         ∃ s : Scene, (∃ k, dict_get reg k = some s) ∧ s.can_stay = true ∧
           n = s.full_name) ∧
    (∀ (reg : Registry) (routers : List Router) (ev : String) (fuel : Nat)
       (history : List String) (ctx : Ctx) (res : RunResult)
       (st' : EngineState),
       default_handler reg routers ev fuel history ctx = .ok (res, st') →
       ∀ n, st'.history.getLast? = some n → n ∈ history ∨
         ∃ s : Scene, (∃ k, dict_get reg k = some s) ∧ s.can_stay = true ∧
           n = s.full_name) :=
  ⟨fun _ _ _ _ _ _ _ h => handler_step_history h,
   fun _ _ _ _ _ _ _ _ h => default_handler_history h,
   fun _ _ _ _ _ _ _ _ h n hl => default_handler_history h n (mem_of_getLast? hl)⟩

theorem C4_can_stay_invariant_witness :
    ((StepResult.finished (step_state none ⟨[], [], []⟩ [] w_scene_a
        (loop_top_ctx none none []))).state.history = ([] : List String) ∨
     ∃ s : Scene, (∃ k, dict_get w_reg k = some s) ∧ s.can_stay = true ∧
       scene_name? none ≠ some s.full_name ∧
       (StepResult.finished (step_state none ⟨[], [], []⟩ [] w_scene_a
         (loop_top_ctx none none []))).state.history =
         set_current_scene [] s) ∧
    (∀ n, n ∈ (step_state none ⟨[], [], []⟩ [] w_scene_a
        (loop_top_ctx none none [])).history → n ∈ ([] : List String) ∨
      ∃ s : Scene, (∃ k, dict_get w_reg k = some s) ∧ s.can_stay = true ∧
        n = s.full_name) ∧
    (∀ n, (step_state none ⟨[], [], []⟩ [] w_scene_a
        (loop_top_ctx none none [])).history.getLast? = some n →
      n ∈ ([] : List String) ∨
      ∃ s : Scene, (∃ k, dict_get w_reg k = some s) ∧ s.can_stay = true ∧
        n = s.full_name) :=
  ⟨C4_can_stay_invariant.1 w_reg [w_router] "message" none none ⟨[], [], []⟩
     (.finished (step_state none ⟨[], [], []⟩ [] w_scene_a
       (loop_top_ctx none none []))) rfl,
   C4_can_stay_invariant.2.1 w_reg [w_router] "message" 1 [] [] .finished
     (step_state none ⟨[], [], []⟩ [] w_scene_a (loop_top_ctx none none []))
     rfl,
   C4_can_stay_invariant.2.2 w_reg [w_router] "message" 1 [] [] .finished
     (step_state none ⟨[], [], []⟩ [] w_scene_a (loop_top_ctx none none []))
     rfl⟩

end EasyDialogs
